import Mathlib

/-!
Shallow embedding of the book-review CRUD API (Express/TypeScript source:
books controller, users controller, reviews controller, and the
validation middleware).

Modelling conventions, chosen once and used throughout:

* Server-generated identifiers are produced in the source as
  `String(counter++)`; since `toString : Nat → String` is injective, a record
  identifier is modelled by the counter value itself (a `Nat`).  Client-supplied
  identifier strings (`Review.bookId`, `Review.userId`) stay `String`.
* An in-memory `Record<string, T>` whose keys are the decimal counter strings is
  modelled as a `List T` in insertion order: JavaScript enumerates integer-like
  keys in ascending numeric order, which coincides with insertion order because
  the counter only grows.  `delete obj[k]` removes the unique entry with that
  key, which the model renders as a filter on the identifier.
* Timestamps (`new Date()`) are abstract instants, modelled as a `Nat` passed to
  each operation; `updatedAt` is `Option Nat`, `none` until the first update.
* JSON numbers are modelled as `Rat` (prices) and `Int` (years, ratings).
* JavaScript truthiness tests (`if (title) ...`) are made explicit: a string is
  truthy iff nonempty, a number is truthy iff nonzero.
* `String.trim` and `String.splitOn` are replaced by structurally recursive
  functions on `List Char` with the same behaviour, so that every definition
  evaluates inside the kernel.
-/

namespace BookReviewApi

/-- Whitespace-trimming on character lists: drop leading and trailing
whitespace, as the `trim()` sanitizer of the validator chains does. -/
def trimChars (l : List Char) : List Char :=
  ((l.dropWhile Char.isWhitespace).reverse.dropWhile Char.isWhitespace).reverse

/-- The trim sanitizer on strings. -/
def trimStr (s : String) : String := ⟨trimChars s.data⟩

/-- Number of characters of a string. -/
def strLen (s : String) : Nat := s.data.length

/-- Characters of a string lower-cased, as `s.toLowerCase()` produces. -/
def lowerChars (s : String) : List Char := s.data.map Char.toLower

/-- Substring test on character lists, the behaviour of JavaScript
`hay.includes(needle)`: some suffix of `hay` starts with `needle`
(the empty needle is contained in everything). -/
def strContainsSub (hay needle : List Char) : Bool :=
  match hay with
  | [] => needle.isEmpty
  | c :: t => needle.isPrefixOf (c :: t) || strContainsSub t needle

/-- Split a character list at every occurrence of `sep` (the behaviour of
`String.split(sep)` on single-character separators). -/
def splitOnChar (sep : Char) : List Char → List (List Char)
  | [] => [[]]
  | c :: t =>
      let r := splitOnChar sep t
      if c == sep then [] :: r
      else
        match r with
        | [] => [[c]]
        | h :: t₂ => (c :: h) :: t₂

/-- Modelled from the spec: the `isEmail` primitive of the validator library is
not part of this repository's source; the spec only requires an
"email-syntax check".  Modelled as: exactly one `@` separating a nonempty local
part from a domain consisting of at least two nonempty dot-separated labels. -/
def isEmailB (s : String) : Bool :=
  match splitOnChar '@' s.data with
  | [loc, dom] =>
      !loc.isEmpty &&
      decide (2 ≤ (splitOnChar '.' dom).length) &&
      (splitOnChar '.' dom).all (fun p => !p.isEmpty)
  | _ => false

/-- One entry of the `details` array of a 400 response: a field-level
violation `{field, message}` as produced by `errors.array()`. -/
structure FieldError where
  field : String
  message : String
deriving DecidableEq

/-- The shape of a handler's HTTP answer: a status code, the JSON body on
success, and the error-envelope fields `code` and `details` otherwise. -/
structure Resp (α : Type) where
  status : Nat
  body : Option α := none
  code : Option String := none
  details : List FieldError := []
deriving DecidableEq

/-! ### Books (books controller) -/

/-- A stored Book record (books controller, `interface Book`).  The string id
`String(bookCounter)` is represented by its numeric value. -/
structure Book where
  id : Nat
  title : String
  author : String
  description : String
  isbn : String
  publishedYear : Int
  price : Rat
  createdAt : Nat
  updatedAt : Option Nat := none
deriving DecidableEq

/-- The books module state: `const books: Record<string, Book>` in insertion
order plus `let bookCounter`. -/
structure BookStore where
  books : List Book
  counter : Nat
deriving DecidableEq

/-- Initial books state: empty record, counter 1. -/
def emptyBooks : BookStore := ⟨[], 1⟩

/-- A create payload that passed the POST /books validator chain
(all six fields present and valid, strings already trimmed where the chain
trims, numbers already normalized by `Number(...)`). -/
structure BookInput where
  title : String
  author : String
  description : String
  isbn : String
  publishedYear : Int
  price : Rat
deriving DecidableEq

/-- POST /books handler body: scan all live books for the same isbn
(`Object.values(books).find(book => book.isbn === isbn)`); on a hit answer
409 `DUPLICATE_ISBN` before the counter is touched; otherwise allocate
`String(bookCounter++)`, stamp `createdAt`, insert, answer 201. -/
def createBook (st : BookStore) (i : BookInput) (now : Nat) : Resp Book × BookStore :=
  match st.books.find? (fun b => b.isbn == i.isbn) with
  | some _ => ({ status := 409, code := some "DUPLICATE_ISBN" }, st)
  | none =>
      let b : Book :=
        { id := st.counter, title := i.title, author := i.author,
          description := i.description, isbn := i.isbn,
          publishedYear := i.publishedYear, price := i.price, createdAt := now }
      ({ status := 201, body := some b },
       { books := st.books ++ [b], counter := st.counter + 1 })

/-- The author query filter of GET /books:
`book.author.toLowerCase().includes(String(author).toLowerCase())`. -/
def authorMatches (bookAuthor q : String) : Bool :=
  strContainsSub (lowerChars bookAuthor) (lowerChars q)

/-- GET /books handler body: start from all live books and apply each supplied
filter in turn.  The `if (author)` truthiness guard skips the author filter for
the empty string; the validated `minPrice`/`maxPrice` query strings are always
nonempty, hence always truthy when present. -/
def listBooks (st : BookStore) (author : Option String)
    (minPrice maxPrice : Option Rat) : List Book :=
  let fb := st.books
  let fb := match author with
    | some a => if a != "" then fb.filter (fun b => authorMatches b.author a) else fb
    | none => fb
  let fb := match minPrice with
    | some m => fb.filter (fun b => decide (m ≤ b.price))
    | none => fb
  let fb := match maxPrice with
    | some M => fb.filter (fun b => decide (b.price ≤ M))
    | none => fb
  fb

/-- GET /books/:bookId handler body: `books[bookId]`, 404 `NOT_FOUND` when
absent. -/
def getBook (st : BookStore) (bookId : Nat) : Resp Book :=
  match st.books.find? (fun b => b.id == bookId) with
  | some b => { status := 200, body := some b }
  | none => { status := 404, code := some "NOT_FOUND" }

/-- An update payload that passed the PUT /books/:bookId validator chain:
every field optional, the same bound checks applied when present. -/
structure BookUpdate where
  title : Option String := none
  author : Option String := none
  description : Option String := none
  isbn : Option String := none
  publishedYear : Option Int := none
  price : Option Rat := none
deriving DecidableEq

/-- The PUT /books/:bookId conflict test
`if (isbn && isbn !== book.isbn) { ... find(b => b.isbn === isbn) ... }`. -/
def isbnConflict (st : BookStore) (b : Book) (u : BookUpdate) : Bool :=
  match u.isbn with
  | some s => s != "" && s != b.isbn && (st.books.find? (fun c => c.isbn == s)).isSome
  | none => false

/-- One truthiness-guarded field assignment `if (x) record.x = x`: the new
value replaces the current one exactly when the field is present and truthy. -/
def updField {β : Type} (cur : β) (v : Option β) (truthy : β → Bool) : β :=
  match v with
  | some x => if truthy x then x else cur
  | none => cur

/-- JavaScript truthiness of a string: falsy iff empty. -/
def strTruthy (s : String) : Bool := s != ""

/-- JavaScript truthiness of an integer: falsy iff zero. -/
def intTruthy (n : Int) : Bool := n != 0

/-- JavaScript truthiness of a (rational) number: falsy iff zero. -/
def ratTruthy (q : Rat) : Bool := q != 0

/-- The field-application block of PUT /books/:bookId: one JavaScript
truthiness-guarded assignment per field (`if (title) book.title = title;` and
so on), then `book.updatedAt = new Date()`. -/
def applyBookUpdate (b : Book) (u : BookUpdate) (now : Nat) : Book :=
  { b with
    title := updField b.title u.title strTruthy,
    author := updField b.author u.author strTruthy,
    description := updField b.description u.description strTruthy,
    isbn := updField b.isbn u.isbn strTruthy,
    publishedYear := updField b.publishedYear u.publishedYear intTruthy,
    price := updField b.price u.price ratTruthy,
    updatedAt := some now }

/-- Replace the (first) element whose identifier is `i` — the in-place mutation
of the record stored under key `i`. -/
def replaceBy {α : Type} (idOf : α → Nat) (i : Nat) (a' : α) : List α → List α
  | [] => []
  | a :: t => if idOf a == i then a' :: t else a :: replaceBy idOf i a' t

/-- PUT /books/:bookId handler body: 404 when the id is absent; 409
`DUPLICATE_ISBN` when a truthy isbn differs from the stored one and some live
book already holds it; otherwise mutate the stored record in place and answer
200 with the full updated record. -/
def updateBook (st : BookStore) (bookId : Nat) (u : BookUpdate) (now : Nat) :
    Resp Book × BookStore :=
  match st.books.find? (fun b => b.id == bookId) with
  | none => ({ status := 404, code := some "NOT_FOUND" }, st)
  | some b =>
      if isbnConflict st b u then
        ({ status := 409, code := some "DUPLICATE_ISBN" }, st)
      else
        let b' := applyBookUpdate b u now
        ({ status := 200, body := some b' },
         { st with books := replaceBy Book.id bookId b' st.books })

/-- DELETE /books/:bookId handler body: 404 when absent, otherwise
`delete books[bookId]` (removal of the unique entry with that id) and 204. -/
def deleteBook (st : BookStore) (bookId : Nat) : Resp Book × BookStore :=
  match st.books.find? (fun b => b.id == bookId) with
  | none => ({ status := 404, code := some "NOT_FOUND" }, st)
  | some _ =>
      ({ status := 204 }, { st with books := st.books.filter (fun b => b.id != bookId) })

/-! ### Users (users controller) -/

/-- A stored User record (users controller, `interface User`). -/
structure User where
  id : Nat
  username : String
  email : String
  createdAt : Nat
  updatedAt : Option Nat := none
deriving DecidableEq

/-- The users module state: `const users: Record<string, User>` plus
`let userCounter`. -/
structure UserStore where
  users : List User
  counter : Nat
deriving DecidableEq

/-- Initial users state. -/
def emptyUsers : UserStore := ⟨[], 1⟩

/-- A create payload that passed the POST /users validator chain. -/
structure UserInput where
  username : String
  email : String
deriving DecidableEq

/-- POST /users handler body: scan for a duplicate email
(`Object.values(users).find(user => user.email === email)`); 409
`DUPLICATE_EMAIL` on a hit, otherwise allocate `String(userCounter++)`,
insert, answer 201. -/
def createUser (st : UserStore) (i : UserInput) (now : Nat) : Resp User × UserStore :=
  match st.users.find? (fun u => u.email == i.email) with
  | some _ => ({ status := 409, code := some "DUPLICATE_EMAIL" }, st)
  | none =>
      let u : User :=
        { id := st.counter, username := i.username, email := i.email, createdAt := now }
      ({ status := 201, body := some u },
       { users := st.users ++ [u], counter := st.counter + 1 })

/-- An update payload that passed the PUT /users/:userId validator chain. -/
structure UserUpdate where
  username : Option String := none
  email : Option String := none
deriving DecidableEq

/-- The PUT /users/:userId conflict test
`if (email && email !== user.email) { ... find(u => u.email === email) ... }`. -/
def emailConflict (st : UserStore) (u : User) (up : UserUpdate) : Bool :=
  match up.email with
  | some e => e != "" && e != u.email && (st.users.find? (fun c => c.email == e)).isSome
  | none => false

/-- The field-application block of PUT /users/:userId:
`if (username) user.username = username; if (email) user.email = email;
user.updatedAt = new Date()`. -/
def applyUserUpdate (u : User) (up : UserUpdate) (now : Nat) : User :=
  { u with
    username := updField u.username up.username strTruthy,
    email := updField u.email up.email strTruthy,
    updatedAt := some now }

/-- PUT /users/:userId handler body. -/
def updateUser (st : UserStore) (userId : Nat) (up : UserUpdate) (now : Nat) :
    Resp User × UserStore :=
  match st.users.find? (fun u => u.id == userId) with
  | none => ({ status := 404, code := some "NOT_FOUND" }, st)
  | some u =>
      if emailConflict st u up then
        ({ status := 409, code := some "DUPLICATE_EMAIL" }, st)
      else
        let u' := applyUserUpdate u up now
        ({ status := 200, body := some u' },
         { st with users := replaceBy User.id userId u' st.users })

/-- DELETE /users/:userId handler body. -/
def deleteUser (st : UserStore) (userId : Nat) : Resp User × UserStore :=
  match st.users.find? (fun u => u.id == userId) with
  | none => ({ status := 404, code := some "NOT_FOUND" }, st)
  | some _ =>
      ({ status := 204 }, { st with users := st.users.filter (fun u => u.id != userId) })

/-! ### Reviews (reviews controller) -/

/-- A stored Review record (reviews controller, `interface Review`).
`bookId` and `userId` are client-supplied strings. -/
structure Review where
  id : Nat
  bookId : String
  userId : String
  text : String
  rating : Int
  createdAt : Nat
  updatedAt : Option Nat := none
deriving DecidableEq

/-- The reviews module state: `const reviews: Record<string, Review>`, the
link index `const bookReviews: Record<string, string[]>`, and
`let reviewCounter`. -/
structure ReviewState where
  reviews : List Review
  bookReviews : List (String × List Nat)
  counter : Nat
deriving DecidableEq

/-- Initial reviews state. -/
def initialReviews : ReviewState := ⟨[], [], 1⟩

/-- Lookup in the link index with the source's missing-key default:
`bookReviews[bookId] || []`. -/
def idxLookup (l : List (String × List Nat)) (k : String) : List Nat :=
  match l.find? (fun p => p.1 == k) with
  | some p => p.2
  | none => []

/-- Assignment `bookReviews[k] = v`: replace the (first) entry with key `k`,
or append a fresh entry when the key is absent. -/
def idxSet (l : List (String × List Nat)) (k : String) (v : List Nat) :
    List (String × List Nat) :=
  match l with
  | [] => [(k, v)]
  | p :: t => if p.1 == k then (k, v) :: t else p :: idxSet t k v

/-- A create payload that passed the POST /reviews validator chain. -/
structure ReviewInput where
  bookId : String
  userId : String
  text : String
  rating : Int
deriving DecidableEq

/-- POST /reviews handler body: allocate `String(reviewCounter++)`, store the
review, and append its id under its book's link-index entry
(`bookReviews[bookId] = bookReviews[bookId] || []; bookReviews[bookId].push(reviewId)`).
No lookup of `bookId` against the books store is performed. -/
def createReview (st : ReviewState) (i : ReviewInput) (now : Nat) :
    Resp Review × ReviewState :=
  let rid := st.counter
  let r : Review :=
    { id := rid, bookId := i.bookId, userId := i.userId, text := i.text,
      rating := i.rating, createdAt := now }
  ({ status := 201, body := some r },
   { reviews := st.reviews ++ [r],
     bookReviews := idxSet st.bookReviews i.bookId (idxLookup st.bookReviews i.bookId ++ [rid]),
     counter := st.counter + 1 })

/-- GET /reviews/book/:bookId handler body:
`(bookReviews[bookId] || []).map(id => reviews[id])` — each link-index entry is
resolved through the reviews record, in link order; a dangling id would
produce `none` (JavaScript `undefined`). -/
def getReviewsForBook (st : ReviewState) (bid : String) : List (Option Review) :=
  (idxLookup st.bookReviews bid).map (fun rid => st.reviews.find? (fun r => r.id == rid))

/-- An update payload that passed the PUT /reviews/:reviewId validator chain
(only `text` and `rating` exist in the chain). -/
structure ReviewUpdate where
  text : Option String := none
  rating : Option Int := none
deriving DecidableEq

/-- The field-application block of PUT /reviews/:reviewId:
`if (text) review.text = text; if (rating) review.rating = Number(rating);
review.updatedAt = new Date()`. -/
def applyReviewUpdate (r : Review) (u : ReviewUpdate) (now : Nat) : Review :=
  { r with
    text := updField r.text u.text strTruthy,
    rating := updField r.rating u.rating intTruthy,
    updatedAt := some now }

/-- PUT /reviews/:reviewId handler body: 404 when absent, otherwise mutate the
stored review in place and answer 200.  The link index is not touched. -/
def updateReview (st : ReviewState) (rid : Nat) (u : ReviewUpdate) (now : Nat) :
    Resp Review × ReviewState :=
  match st.reviews.find? (fun r => r.id == rid) with
  | none => ({ status := 404, code := some "NOT_FOUND" }, st)
  | some r =>
      let r' := applyReviewUpdate r u now
      ({ status := 200, body := some r' },
       { st with reviews := replaceBy Review.id rid r' st.reviews })

/-- DELETE /reviews/:reviewId handler body: 404 when absent, otherwise
`delete reviews[reviewId]` and removal of the id from the owning book's
link-index entry (`bookReviews[review.bookId].filter(id => id !== reviewId)`).
On every reachable state the owning entry exists, so the missing-key default
of `idxLookup` never engages. -/
def deleteReview (st : ReviewState) (rid : Nat) : Resp Review × ReviewState :=
  match st.reviews.find? (fun r => r.id == rid) with
  | none => ({ status := 404, code := some "NOT_FOUND" }, st)
  | some r =>
      ({ status := 204 },
       { reviews := st.reviews.filter (fun x => x.id != rid),
         bookReviews := idxSet st.bookReviews r.bookId
           ((idxLookup st.bookReviews r.bookId).filter (fun x => x != rid)),
         counter := st.counter })

/-- The whole application state: one store per controller module. -/
structure AppState where
  books : BookStore
  users : UserStore
  reviews : ReviewState
deriving DecidableEq

/-- POST /reviews at application level: the handler reads and writes only the
reviews module's state. -/
def appCreateReview (app : AppState) (i : ReviewInput) (now : Nat) :
    Resp Review × AppState :=
  let res := createReview app.reviews i now
  (res.1, { app with reviews := res.2 })

/-- One review-resource mutation, for reasoning about operation sequences. -/
inductive ReviewOp where
  | create (i : ReviewInput) (now : Nat)
  | update (rid : Nat) (u : ReviewUpdate) (now : Nat)
  | del (rid : Nat)
deriving DecidableEq

/-- State change of one review operation. -/
def applyOp (st : ReviewState) : ReviewOp → ReviewState
  | .create i now => (createReview st i now).2
  | .update rid u now => (updateReview st rid u now).2
  | .del rid => (deleteReview st rid).2

/-- Run a sequence of review operations from a given state. -/
def runOps (st : ReviewState) (ops : List ReviewOp) : ReviewState :=
  ops.foldl applyOp st

/-- The states the reviews module can actually be in: reachable from the empty
initial state by some sequence of operations. -/
def Reachable (st : ReviewState) : Prop :=
  ∃ ops : List ReviewOp, st = runOps initialReviews ops

/-! ### Raw payloads and the validator chains

The validator middleware (`validateRequest`) answers 400 with
`details = errors.array()` — the violations of every field, aggregated —
before the handler body runs; each chain below is modelled as a function from
the raw field to its list of violations.  A raw field is `none` when absent
from the JSON body (payloads of non-string/non-numeric JSON type are outside
the model). -/

/-- The library's default message for a validator that carries no
`withMessage`. -/
def invalidValue (f : String) : FieldError := ⟨f, "Invalid value"⟩

/-- Raw POST /users body. -/
structure RawUserPayload where
  username : Option String := none
  email : Option String := none
deriving DecidableEq

/-- Chain `body('username').isString().notEmpty().trim().isLength({min:3,max:50})`
with its custom message on the length check.  An absent field fails every
validator of the chain; `notEmpty` sees the untrimmed value; the length bound
applies to the trimmed value. -/
def usernameCreateErrs : Option String → List FieldError
  | none => [invalidValue "username", invalidValue "username",
             ⟨"username", "Username must be between 3 and 50 characters"⟩]
  | some s =>
      (if s == "" then [invalidValue "username"] else []) ++
      (if 3 ≤ strLen (trimStr s) ∧ strLen (trimStr s) ≤ 50 then []
       else [⟨"username", "Username must be between 3 and 50 characters"⟩])

/-- Chain `body('email').isEmail().withMessage('Must be a valid email address')`. -/
def emailErrs : Option String → List FieldError
  | none => [⟨"email", "Must be a valid email address"⟩]
  | some s => if isEmailB s then [] else [⟨"email", "Must be a valid email address"⟩]

/-- All violations of a raw POST /users body, aggregated across fields in
chain order. -/
def userCreateViolations (p : RawUserPayload) : List FieldError :=
  usernameCreateErrs p.username ++ emailErrs p.email

/-- Outcome of the POST /users validator chains: the aggregated violation list,
or the normalized payload (trimmed username) that the handler body reads. -/
def validateUserCreate (p : RawUserPayload) : Except (List FieldError) UserInput :=
  if userCreateViolations p = [] then
    .ok { username := trimStr (p.username.getD ""), email := p.email.getD "" }
  else
    .error (userCreateViolations p)

/-- POST /users including the validation middleware: on any violation answer
400 with the aggregated details and leave the store untouched, otherwise run
the handler body. -/
def handleUserCreateRaw (st : UserStore) (p : RawUserPayload) (now : Nat) :
    Resp User × UserStore :=
  match validateUserCreate p with
  | .error errs => ({ status := 400, code := some "VALIDATION_ERROR", details := errs }, st)
  | .ok i => createUser st i now

/-- Raw POST /books body. -/
structure RawBookPayload where
  title : Option String := none
  author : Option String := none
  description : Option String := none
  isbn : Option String := none
  publishedYear : Option Int := none
  price : Option Rat := none
deriving DecidableEq

/-- Chain `body('title').isString().notEmpty().trim().isLength({min:1,max:200})`. -/
def titleCreateErrs : Option String → List FieldError
  | none => [invalidValue "title", invalidValue "title",
             ⟨"title", "Title must be between 1 and 200 characters"⟩]
  | some s =>
      (if s == "" then [invalidValue "title"] else []) ++
      (if 1 ≤ strLen (trimStr s) ∧ strLen (trimStr s) ≤ 200 then []
       else [⟨"title", "Title must be between 1 and 200 characters"⟩])

/-- Chain `body('author').isString().notEmpty().trim().isLength({min:1,max:100})`. -/
def authorCreateErrs : Option String → List FieldError
  | none => [invalidValue "author", invalidValue "author",
             ⟨"author", "Author must be between 1 and 100 characters"⟩]
  | some s =>
      (if s == "" then [invalidValue "author"] else []) ++
      (if 1 ≤ strLen (trimStr s) ∧ strLen (trimStr s) ≤ 100 then []
       else [⟨"author", "Author must be between 1 and 100 characters"⟩])

/-- Chain `body('description').isString().notEmpty().trim().isLength({min:10,max:2000})`. -/
def descriptionCreateErrs : Option String → List FieldError
  | none => [invalidValue "description", invalidValue "description",
             ⟨"description", "Description must be between 10 and 2000 characters"⟩]
  | some s =>
      (if s == "" then [invalidValue "description"] else []) ++
      (if 10 ≤ strLen (trimStr s) ∧ strLen (trimStr s) ≤ 2000 then []
       else [⟨"description", "Description must be between 10 and 2000 characters"⟩])

/-- The regular expression of the isbn rule, `/^[0-9-]{10,13}$/`: a string of
10 to 13 characters, each one a digit or a hyphen. -/
def isbnMatches (s : String) : Bool :=
  decide (10 ≤ strLen s) && decide (strLen s ≤ 13) &&
    s.data.all (fun c => c.isDigit || c == '-')

/-- Chain `body('isbn').isString().matches(/^[0-9-]{10,13}$/)` of POST /books. -/
def isbnCreateErrs : Option String → List FieldError
  | none => [invalidValue "isbn",
             ⟨"isbn", "ISBN must be 10-13 digits with optional hyphens"⟩]
  | some s =>
      if isbnMatches s then []
      else [⟨"isbn", "ISBN must be 10-13 digits with optional hyphens"⟩]

/-- Chain `body('isbn').optional().isString().matches(/^[0-9-]{10,13}$/)` of
PUT /books/:bookId: an absent field is accepted. -/
def isbnUpdateErrs : Option String → List FieldError
  | none => []
  | some s =>
      if isbnMatches s then []
      else [⟨"isbn", "ISBN must be 10-13 digits with optional hyphens"⟩]

/-- Chain `body('publishedYear').isInt({min:1800,max:2024})`. -/
def publishedYearCreateErrs : Option Int → List FieldError
  | none => [⟨"publishedYear", "Published year must be between 1800 and 2024"⟩]
  | some y =>
      if 1800 ≤ y ∧ y ≤ 2024 then []
      else [⟨"publishedYear", "Published year must be between 1800 and 2024"⟩]

/-- Chain `body('price').isFloat({min:0})`. -/
def priceCreateErrs : Option Rat → List FieldError
  | none => [⟨"price", "Price must be a positive number"⟩]
  | some p =>
      if 0 ≤ p then [] else [⟨"price", "Price must be a positive number"⟩]

/-- All violations of a raw POST /books body, aggregated across fields in
chain order. -/
def bookCreateViolations (p : RawBookPayload) : List FieldError :=
  titleCreateErrs p.title ++ authorCreateErrs p.author ++
  descriptionCreateErrs p.description ++ isbnCreateErrs p.isbn ++
  publishedYearCreateErrs p.publishedYear ++ priceCreateErrs p.price

/-- Outcome of the POST /books validator chains. -/
def validateBookCreate (p : RawBookPayload) : Except (List FieldError) BookInput :=
  if bookCreateViolations p = [] then
    .ok { title := trimStr (p.title.getD ""), author := trimStr (p.author.getD ""),
          description := trimStr (p.description.getD ""), isbn := p.isbn.getD "",
          publishedYear := p.publishedYear.getD 0, price := p.price.getD 0 }
  else
    .error (bookCreateViolations p)

/-- POST /books including the validation middleware. -/
def handleBookCreateRaw (st : BookStore) (p : RawBookPayload) (now : Nat) :
    Resp Book × BookStore :=
  match validateBookCreate p with
  | .error errs => ({ status := 400, code := some "VALIDATION_ERROR", details := errs }, st)
  | .ok i => createBook st i now

/-- Raw POST /reviews body (`rating` arrives as a JSON integer). -/
structure RawReviewPayload where
  bookId : Option String := none
  userId : Option String := none
  text : Option String := none
  rating : Option Int := none
deriving DecidableEq

/-- Chain `body('bookId').isString().notEmpty()` (default messages only). -/
def bookIdCreateErrs : Option String → List FieldError
  | none => [invalidValue "bookId", invalidValue "bookId"]
  | some s => if s == "" then [invalidValue "bookId"] else []

/-- Chain `body('userId').isString().notEmpty()`. -/
def userIdCreateErrs : Option String → List FieldError
  | none => [invalidValue "userId", invalidValue "userId"]
  | some s => if s == "" then [invalidValue "userId"] else []

/-- Chain `body('text').isString().notEmpty().trim().isLength({min:10,max:1000})`. -/
def textCreateErrs : Option String → List FieldError
  | none => [invalidValue "text", invalidValue "text", invalidValue "text"]
  | some s =>
      (if s == "" then [invalidValue "text"] else []) ++
      (if 10 ≤ strLen (trimStr s) ∧ strLen (trimStr s) ≤ 1000 then []
       else [invalidValue "text"])

/-- Chain `body('rating').isInt({min:1,max:5})`. -/
def ratingCreateErrs : Option Int → List FieldError
  | none => [invalidValue "rating"]
  | some n => if 1 ≤ n ∧ n ≤ 5 then [] else [invalidValue "rating"]

/-- All violations of a raw POST /reviews body, aggregated across fields in
chain order. -/
def reviewCreateViolations (p : RawReviewPayload) : List FieldError :=
  bookIdCreateErrs p.bookId ++ userIdCreateErrs p.userId ++
  textCreateErrs p.text ++ ratingCreateErrs p.rating

/-- Outcome of the POST /reviews validator chains. -/
def validateReviewCreate (p : RawReviewPayload) : Except (List FieldError) ReviewInput :=
  if reviewCreateViolations p = [] then
    .ok { bookId := p.bookId.getD "", userId := p.userId.getD "",
          text := trimStr (p.text.getD ""), rating := p.rating.getD 0 }
  else
    .error (reviewCreateViolations p)

/-- POST /reviews including the validation middleware. -/
def handleReviewCreateRaw (st : ReviewState) (p : RawReviewPayload) (now : Nat) :
    Resp Review × ReviewState :=
  match validateReviewCreate p with
  | .error errs => ({ status := 400, code := some "VALIDATION_ERROR", details := errs }, st)
  | .ok i => createReview st i now

/-- Chain `body('title').optional().isString().trim().isLength({min:1,max:200})`
of PUT /books/:bookId: an absent field is accepted, a present one is trimmed
and bound-checked. -/
def titleUpdateErrs : Option String → List FieldError
  | none => []
  | some s =>
      if 1 ≤ strLen (trimStr s) ∧ strLen (trimStr s) ≤ 200 then []
      else [⟨"title", "Title must be between 1 and 200 characters"⟩]

/-- Chain `body('author').optional().isString().trim().isLength({min:1,max:100})`. -/
def authorUpdateErrs : Option String → List FieldError
  | none => []
  | some s =>
      if 1 ≤ strLen (trimStr s) ∧ strLen (trimStr s) ≤ 100 then []
      else [⟨"author", "Author must be between 1 and 100 characters"⟩]

/-- Chain `body('description').optional().isString().trim().isLength({min:10,max:2000})`. -/
def descriptionUpdateErrs : Option String → List FieldError
  | none => []
  | some s =>
      if 10 ≤ strLen (trimStr s) ∧ strLen (trimStr s) ≤ 2000 then []
      else [⟨"description", "Description must be between 10 and 2000 characters"⟩]

/-- Chain `body('publishedYear').optional().isInt({min:1800,max:2024})`. -/
def publishedYearUpdateErrs : Option Int → List FieldError
  | none => []
  | some y =>
      if 1800 ≤ y ∧ y ≤ 2024 then []
      else [⟨"publishedYear", "Published year must be between 1800 and 2024"⟩]

/-- Chain `body('price').optional().isFloat({min:0})`. -/
def priceUpdateErrs : Option Rat → List FieldError
  | none => []
  | some p => if 0 ≤ p then [] else [⟨"price", "Price must be a positive number"⟩]

/-- All violations of a raw PUT /books/:bookId body, aggregated across fields
in chain order. -/
def bookUpdateViolations (p : RawBookPayload) : List FieldError :=
  titleUpdateErrs p.title ++ authorUpdateErrs p.author ++
  descriptionUpdateErrs p.description ++ isbnUpdateErrs p.isbn ++
  publishedYearUpdateErrs p.publishedYear ++ priceUpdateErrs p.price

/-- Outcome of the PUT /books/:bookId validator chains (string fields reach
the handler trimmed). -/
def validateBookUpdate (p : RawBookPayload) : Except (List FieldError) BookUpdate :=
  if bookUpdateViolations p = [] then
    .ok { title := p.title.map trimStr, author := p.author.map trimStr,
          description := p.description.map trimStr, isbn := p.isbn,
          publishedYear := p.publishedYear, price := p.price }
  else
    .error (bookUpdateViolations p)

/-- PUT /books/:bookId including the validation middleware. -/
def handleBookUpdateRaw (st : BookStore) (bookId : Nat) (p : RawBookPayload) (now : Nat) :
    Resp Book × BookStore :=
  match validateBookUpdate p with
  | .error errs => ({ status := 400, code := some "VALIDATION_ERROR", details := errs }, st)
  | .ok u => updateBook st bookId u now

/-- Chain `body('username').optional().isString().trim().isLength({min:3,max:50})`. -/
def usernameUpdateErrs : Option String → List FieldError
  | none => []
  | some s =>
      if 3 ≤ strLen (trimStr s) ∧ strLen (trimStr s) ≤ 50 then []
      else [⟨"username", "Username must be between 3 and 50 characters"⟩]

/-- Chain `body('email').optional().isEmail()`. -/
def emailUpdateErrs : Option String → List FieldError
  | none => []
  | some s => if isEmailB s then [] else [⟨"email", "Must be a valid email address"⟩]

/-- All violations of a raw PUT /users/:userId body. -/
def userUpdateViolations (p : RawUserPayload) : List FieldError :=
  usernameUpdateErrs p.username ++ emailUpdateErrs p.email

/-- Outcome of the PUT /users/:userId validator chains. -/
def validateUserUpdate (p : RawUserPayload) : Except (List FieldError) UserUpdate :=
  if userUpdateViolations p = [] then
    .ok { username := p.username.map trimStr, email := p.email }
  else
    .error (userUpdateViolations p)

/-- PUT /users/:userId including the validation middleware. -/
def handleUserUpdateRaw (st : UserStore) (userId : Nat) (p : RawUserPayload) (now : Nat) :
    Resp User × UserStore :=
  match validateUserUpdate p with
  | .error errs => ({ status := 400, code := some "VALIDATION_ERROR", details := errs }, st)
  | .ok u => updateUser st userId u now

/-- Chain `body('text').optional().isString().trim().isLength({min:10,max:1000})`. -/
def textUpdateErrs : Option String → List FieldError
  | none => []
  | some s =>
      if 10 ≤ strLen (trimStr s) ∧ strLen (trimStr s) ≤ 1000 then []
      else [invalidValue "text"]

/-- Chain `body('rating').optional().isInt({min:1,max:5})`. -/
def ratingUpdateErrs : Option Int → List FieldError
  | none => []
  | some n => if 1 ≤ n ∧ n ≤ 5 then [] else [invalidValue "rating"]

/-- All violations of a raw PUT /reviews/:reviewId body. -/
def reviewUpdateViolations (p : RawReviewPayload) : List FieldError :=
  textUpdateErrs p.text ++ ratingUpdateErrs p.rating

/-- Outcome of the PUT /reviews/:reviewId validator chains. -/
def validateReviewUpdate (p : RawReviewPayload) : Except (List FieldError) ReviewUpdate :=
  if reviewUpdateViolations p = [] then
    .ok { text := p.text.map trimStr, rating := p.rating }
  else
    .error (reviewUpdateViolations p)

/-- PUT /reviews/:reviewId including the validation middleware. -/
def handleReviewUpdateRaw (st : ReviewState) (rid : Nat) (p : RawReviewPayload) (now : Nat) :
    Resp Review × ReviewState :=
  match validateReviewUpdate p with
  | .error errs => ({ status := 400, code := some "VALIDATION_ERROR", details := errs }, st)
  | .ok u => updateReview st rid u now

/-! ### Spec-side definitions, for comparison with the code -/

/-- The spec's isbn acceptance condition, as the claim words it: between 10 and
13 digit characters, possibly interspersed with hyphens. -/
def specIsbnOk (s : String) : Bool :=
  decide (10 ≤ (s.data.filter Char.isDigit).length) &&
  decide ((s.data.filter Char.isDigit).length ≤ 13) &&
  s.data.all (fun c => c.isDigit || c == '-')

/-- The book-listing filter as the spec states it: the conjunction of a
case-insensitive substring match on author and inclusive price bounds, one
conjunct per supplied query parameter. -/
def specBookFilter (author : Option String) (minPrice maxPrice : Option Rat)
    (b : Book) : Bool :=
  (match author with
   | some a => authorMatches b.author a
   | none => true) &&
  (match minPrice with
   | some m => decide (m ≤ b.price)
   | none => true) &&
  (match maxPrice with
   | some M => decide (b.price ≤ M)
   | none => true)

/-- Uniqueness of a designated field among the live records of a list. -/
def UniqueBy {α : Type} (keyOf : α → String) (l : List α) : Prop :=
  l.Pairwise (fun x y => keyOf x ≠ keyOf y)

instance uniqueByDecidable {α : Type} (keyOf : α → String) (l : List α) :
    Decidable (UniqueBy keyOf l) :=
  inferInstanceAs (Decidable (l.Pairwise fun x y => keyOf x ≠ keyOf y))

/-! ### Helper lemmas -/

theorem strContainsSub_nil (hay : List Char) : strContainsSub hay [] = true := by
  cases hay <;> simp [strContainsSub, List.isPrefixOf]

theorem mem_replaceBy {α : Type} {idOf : α → Nat} {i : Nat} {a' : α} {l : List α} {d : α}
    (hd : d ∈ replaceBy idOf i a' l) : d ∈ l ∨ d = a' := by
  induction l with
  | nil => simp [replaceBy] at hd
  | cons a t ih =>
    by_cases h : (idOf a == i) = true
    · rw [replaceBy, if_pos h] at hd
      rcases List.mem_cons.mp hd with h1 | h1
      · exact Or.inr h1
      · exact Or.inl (List.mem_cons_of_mem _ h1)
    · rw [replaceBy, if_neg h] at hd
      rcases List.mem_cons.mp hd with h1 | h1
      · exact Or.inl (h1 ▸ List.mem_cons_self a t)
      · rcases ih h1 with h2 | h2
        · exact Or.inl (List.mem_cons_of_mem _ h2)
        · exact Or.inr h2

theorem map_replaceBy {α β : Type} (f : α → β) {idOf : α → Nat} {i : Nat} {a' : α}
    {l : List α} (h : ∀ c ∈ l, (idOf c == i) = true → f a' = f c) :
    (replaceBy idOf i a' l).map f = l.map f := by
  induction l with
  | nil => rfl
  | cons a t ih =>
    by_cases ha : (idOf a == i) = true
    · rw [replaceBy, if_pos ha]
      simp [h a (List.mem_cons_self a t) ha]
    · rw [replaceBy, if_neg ha]
      simp only [List.map_cons]
      rw [ih (fun c hc => h c (List.mem_cons_of_mem _ hc))]

theorem pairwise_replaceBy {α : Type} {idOf : α → Nat} (keyOf : α → String)
    {l : List α} {i : Nat} {b₀ a' : α}
    (hfind : l.find? (fun c => idOf c == i) = some b₀)
    (h : l.Pairwise (fun x y => keyOf x ≠ keyOf y))
    (hb : keyOf a' = keyOf b₀ ∨ ∀ d ∈ l, keyOf d ≠ keyOf a') :
    (replaceBy idOf i a' l).Pairwise (fun x y => keyOf x ≠ keyOf y) := by
  induction l with
  | nil => simp [replaceBy]
  | cons a t ih =>
    rw [List.pairwise_cons] at h
    obtain ⟨ha, ht⟩ := h
    by_cases hai : (idOf a == i) = true
    · have hb₀ : b₀ = a := by
        rw [List.find?_cons_of_pos (p := fun c => idOf c == i) _ hai] at hfind
        exact (Option.some_inj.mp hfind).symm
      rw [replaceBy, if_pos hai, List.pairwise_cons]
      refine ⟨?_, ht⟩
      intro d hd
      rcases hb with hk | hk
      · rw [hk, hb₀]; exact ha d hd
      · exact fun hc => hk d (List.mem_cons_of_mem _ hd) hc.symm
    · have hfind' : t.find? (fun c => idOf c == i) = some b₀ := by
        rwa [List.find?_cons_of_neg (p := fun c => idOf c == i) _ hai] at hfind
      have hb' : keyOf a' = keyOf b₀ ∨ ∀ d ∈ t, keyOf d ≠ keyOf a' := by
        rcases hb with hk | hk
        · exact Or.inl hk
        · exact Or.inr fun d hd => hk d (List.mem_cons_of_mem _ hd)
      rw [replaceBy, if_neg hai, List.pairwise_cons]
      refine ⟨?_, ih hfind' ht hb'⟩
      intro d hd
      rcases mem_replaceBy hd with h1 | h1
      · exact ha d h1
      · subst h1
        rcases hb with hk | hk
        · rw [hk]; exact ha b₀ (List.mem_of_find?_eq_some hfind')
        · exact fun hc => hk a (List.mem_cons_self a t) hc

theorem idxLookup_idxSet_self (l : List (String × List Nat)) (k : String) (v : List Nat) :
    idxLookup (idxSet l k v) k = v := by
  induction l with
  | nil => simp [idxSet, idxLookup]
  | cons p t ih =>
    by_cases h : (p.1 == k) = true
    · rw [idxSet, if_pos h]
      simp [idxLookup]
    · rw [idxSet, if_neg h]
      rw [idxLookup, List.find?_cons_of_neg (p := fun x : String × List Nat => x.1 == k) _ h]
      exact ih

theorem mem_idxSet {l : List (String × List Nat)} {k : String} {v : List Nat}
    {p : String × List Nat} (hp : p ∈ idxSet l k v) : p = (k, v) ∨ p ∈ l := by
  induction l with
  | nil => simpa [idxSet] using hp
  | cons q t ih =>
    by_cases h : (q.1 == k) = true
    · rw [idxSet, if_pos h] at hp
      rcases List.mem_cons.mp hp with h1 | h1
      · exact Or.inl h1
      · exact Or.inr (List.mem_cons_of_mem _ h1)
    · rw [idxSet, if_neg h] at hp
      rcases List.mem_cons.mp hp with h1 | h1
      · exact Or.inr (h1 ▸ List.mem_cons_self q t)
      · rcases ih h1 with h2 | h2
        · exact Or.inl h2
        · exact Or.inr (List.mem_cons_of_mem _ h2)

theorem keys_idxSet_nodup {l : List (String × List Nat)} {k : String} {v : List Nat}
    (h : (l.map Prod.fst).Nodup) : ((idxSet l k v).map Prod.fst).Nodup := by
  induction l with
  | nil => simp [idxSet]
  | cons q t ih =>
    simp only [List.map_cons, List.nodup_cons] at h
    obtain ⟨hq, ht⟩ := h
    by_cases hqk : (q.1 == k) = true
    · rw [idxSet, if_pos hqk]
      simp only [List.map_cons, List.nodup_cons]
      exact ⟨by rw [← (beq_iff_eq.mp hqk)]; exact hq, ht⟩
    · rw [idxSet, if_neg hqk]
      simp only [List.map_cons, List.nodup_cons]
      refine ⟨?_, ih ht⟩
      intro hmem
      rcases List.mem_map.mp hmem with ⟨p, hp, hfst⟩
      rcases mem_idxSet hp with h1 | h1
      · have hqe : q.1 = k := by rw [← hfst, h1]
        exact hqk (beq_iff_eq.mpr hqe)
      · exact hq (hfst ▸ List.mem_map_of_mem Prod.fst h1)

theorem mem_idxSet_nodup {l : List (String × List Nat)} {k : String} {v : List Nat}
    {p : String × List Nat} (hnd : (l.map Prod.fst).Nodup) (hp : p ∈ idxSet l k v) :
    p = (k, v) ∨ (p ∈ l ∧ p.1 ≠ k) := by
  induction l with
  | nil => simpa [idxSet] using hp
  | cons q t ih =>
    simp only [List.map_cons, List.nodup_cons] at hnd
    obtain ⟨hq, ht⟩ := hnd
    by_cases h : (q.1 == k) = true
    · rw [idxSet, if_pos h] at hp
      rcases List.mem_cons.mp hp with h1 | h1
      · exact Or.inl h1
      · refine Or.inr ⟨List.mem_cons_of_mem _ h1, ?_⟩
        intro hpk
        exact hq ((beq_iff_eq.mp h) ▸ hpk ▸ List.mem_map_of_mem Prod.fst h1)
    · rw [idxSet, if_neg h] at hp
      rcases List.mem_cons.mp hp with h1 | h1
      · exact Or.inr ⟨h1 ▸ List.mem_cons_self q t, by subst h1; simpa using h⟩
      · rcases ih ht h1 with h2 | h2
        · exact Or.inl h2
        · exact Or.inr ⟨List.mem_cons_of_mem _ h2.1, h2.2⟩

theorem mem_idxLookup {l : List (String × List Nat)} {k : String} {n : Nat}
    (hn : n ∈ idxLookup l k) : ∃ p ∈ l, p.1 = k ∧ n ∈ p.2 := by
  rw [idxLookup] at hn
  rcases ho : l.find? (fun p => p.1 == k) with _ | p
  · rw [ho] at hn; simp at hn
  · rw [ho] at hn
    have hkey : (p.1 == k) = true := List.find?_some (p := fun x : String × List Nat => x.1 == k) ho
    exact ⟨p, List.mem_of_find?_eq_some ho, beq_iff_eq.mp hkey, hn⟩

theorem find?_unique_mem {l : List Review} (hnd : (l.map Review.id).Nodup)
    {x : Review} (hx : x ∈ l) : l.find? (fun y => y.id == x.id) = some x := by
  induction l with
  | nil => simp at hx
  | cons a t ih =>
    simp only [List.map_cons, List.nodup_cons] at hnd
    obtain ⟨ha, ht⟩ := hnd
    rcases List.mem_cons.mp hx with h1 | h1
    · subst h1
      exact List.find?_cons_of_pos (p := fun y : Review => y.id == x.id) _ (by simp)
    · have hne : (a.id == x.id) ≠ true := by
        intro hc
        exact ha ((beq_iff_eq.mp hc) ▸ List.mem_map_of_mem Review.id h1)
      rw [List.find?_cons_of_neg (p := fun y : Review => y.id == x.id) _ hne]
      exact ih ht h1

/-! ### Claims -/

def c1Book : Book :=
  { id := 1, title := "Dune", author := "Frank Herbert",
    description := "A desert planet saga of politics and prophecy",
    isbn := "9780441013593", publishedYear := 1965, price := 12, createdAt := 0 }

def c1Input : BookInput :=
  { title := "Dune Messiah", author := "Frank Herbert",
    description := "The second desert planet saga",
    isbn := "9780441013593", publishedYear := 1969, price := 13 }

def c1User : User := { id := 1, username := "alice", email := "a@b.com", createdAt := 0 }

def c1UserInput : UserInput := { username := "bob", email := "a@b.com" }

/-- C1: a create whose validated payload collides on the unique field — isbn
for books, email for users — answers 409 with the resource-specific code
(`DUPLICATE_ISBN` / `DUPLICATE_EMAIL`) and leaves the store completely
unchanged — no record inserted and the counter untouched, so the next
successful create gets the same id it would have gotten; without a collision
the create answers 201. -/
theorem createDuplicateConflict (stB : BookStore) (i : BookInput)
    (stU : UserStore) (j : UserInput) (now : Nat) :
    ((∃ b ∈ stB.books, b.isbn = i.isbn) →
      createBook stB i now = ({ status := 409, code := some "DUPLICATE_ISBN" }, stB)) ∧
    ((¬ ∃ b ∈ stB.books, b.isbn = i.isbn) → (createBook stB i now).1.status = 201) ∧
    ((∃ u ∈ stU.users, u.email = j.email) →
      createUser stU j now = ({ status := 409, code := some "DUPLICATE_EMAIL" }, stU)) ∧
    ((¬ ∃ u ∈ stU.users, u.email = j.email) → (createUser stU j now).1.status = 201) := by
  refine ⟨?_, ?_, ?_, ?_⟩
  · rintro ⟨b, hb, he⟩
    have hs : (stB.books.find? (fun x => x.isbn == i.isbn)).isSome := by
      rw [List.find?_isSome]; exact ⟨b, hb, by simp [he]⟩
    obtain ⟨c, hc⟩ := Option.isSome_iff_exists.mp hs
    simp [createBook, hc]
  · intro h
    have hn : stB.books.find? (fun x => x.isbn == i.isbn) = none := by
      rw [List.find?_eq_none]
      intro x hx hbe
      exact h ⟨x, hx, by simpa using hbe⟩
    simp [createBook, hn]
  · rintro ⟨u, hu, he⟩
    have hs : (stU.users.find? (fun x => x.email == j.email)).isSome := by
      rw [List.find?_isSome]; exact ⟨u, hu, by simp [he]⟩
    obtain ⟨c, hc⟩ := Option.isSome_iff_exists.mp hs
    simp [createUser, hc]
  · intro h
    have hn : stU.users.find? (fun x => x.email == j.email) = none := by
      rw [List.find?_eq_none]
      intro x hx hbe
      exact h ⟨x, hx, by simpa using hbe⟩
    simp [createUser, hn]

theorem createDuplicateConflict_witness :
    createBook ⟨[c1Book], 2⟩ c1Input 5 =
      ({ status := 409, code := some "DUPLICATE_ISBN" }, ⟨[c1Book], 2⟩) ∧
    (createBook emptyBooks c1Input 5).1.status = 201 ∧
    createUser ⟨[c1User], 2⟩ c1UserInput 5 =
      ({ status := 409, code := some "DUPLICATE_EMAIL" }, ⟨[c1User], 2⟩) ∧
    (createUser emptyUsers c1UserInput 5).1.status = 201 := by
  have h1 := createDuplicateConflict ⟨[c1Book], 2⟩ c1Input ⟨[c1User], 2⟩ c1UserInput 5
  have h2 := createDuplicateConflict emptyBooks c1Input emptyUsers c1UserInput 5
  exact ⟨h1.1 ⟨c1Book, by decide, by decide⟩, h2.2.1 (by decide),
    h1.2.2.1 ⟨c1User, by decide, by decide⟩, h2.2.2.2 (by decide)⟩

def c3Book : Book :=
  { id := 1, title := "Dune", author := "Frank Herbert",
    description := "A desert planet saga of politics and prophecy",
    isbn := "9780441013593", publishedYear := 1965, price := 12, createdAt := 0 }

/-- C3 (failing part, code bug): `price: 0` passes the PUT /books validator
(`isFloat({min:0})` accepts zero) but the handler's truthiness test
`if (price) book.price = Number(price)` skips the assignment for zero, so a
validated PUT carrying price 0 answers 200 while leaving the stored price
unchanged — against the contract that every field present in a validated
partial update is applied. -/
theorem priceZeroIgnored :
    priceUpdateErrs (some 0) = [] ∧
    (handleBookUpdateRaw ⟨[c3Book], 2⟩ 1 { price := some 0 } 7).1.status = 200 ∧
    (handleBookUpdateRaw ⟨[c3Book], 2⟩ 1 { price := some 0 } 7).2.books =
      [{ c3Book with updatedAt := some 7 }] := by
  decide

/-- C4: a record fresh from a successful create carries no `updatedAt` (and is
stored exactly as returned), while the record produced — and stored — by any
successful PUT, including one whose body offers no updatable field, carries
`updatedAt` stamped with the operation's time. -/
theorem updatedAtLifecycle (stB : BookStore) (i : BookInput) (bid : Nat) (ub : BookUpdate)
    (stU : UserStore) (j : UserInput) (uid : Nat) (uu : UserUpdate)
    (stR : ReviewState) (k : ReviewInput) (rid : Nat) (ur : ReviewUpdate) (now : Nat) :
    (∀ b, (createBook stB i now).1.body = some b →
      b.updatedAt = none ∧ (createBook stB i now).2.books = stB.books ++ [b]) ∧
    (∀ u, (createUser stU j now).1.body = some u →
      u.updatedAt = none ∧ (createUser stU j now).2.users = stU.users ++ [u]) ∧
    (∀ r, (createReview stR k now).1.body = some r →
      r.updatedAt = none ∧ (createReview stR k now).2.reviews = stR.reviews ++ [r]) ∧
    (∀ b, (updateBook stB bid ub now).1.body = some b → b.updatedAt = some now) ∧
    (∀ u, (updateUser stU uid uu now).1.body = some u → u.updatedAt = some now) ∧
    (∀ r, (updateReview stR rid ur now).1.body = some r → r.updatedAt = some now) := by
  refine ⟨?_, ?_, ?_, ?_, ?_, ?_⟩
  · intro b hb
    rcases ho : stB.books.find? (fun x => x.isbn == i.isbn) with _ | c
    · simp only [createBook, ho] at hb ⊢
      simp at hb
      exact ⟨by rw [← hb], by rw [← hb]⟩
    · simp [createBook, ho] at hb
  · intro u hu
    rcases ho : stU.users.find? (fun x => x.email == j.email) with _ | c
    · simp only [createUser, ho] at hu ⊢
      simp at hu
      exact ⟨by rw [← hu], by rw [← hu]⟩
    · simp [createUser, ho] at hu
  · intro r hr
    simp only [createReview] at hr ⊢
    simp at hr
    exact ⟨by rw [← hr], by rw [← hr]⟩
  · intro b hb
    rcases ho : stB.books.find? (fun x => x.id == bid) with _ | c
    · simp [updateBook, ho] at hb
    · by_cases hc : isbnConflict stB c ub
      · simp [updateBook, ho, hc] at hb
      · simp only [updateBook, ho, if_neg hc] at hb
        simp at hb
        rw [← hb, applyBookUpdate]
  · intro u hu
    rcases ho : stU.users.find? (fun x => x.id == uid) with _ | c
    · simp [updateUser, ho] at hu
    · by_cases hc : emailConflict stU c uu
      · simp [updateUser, ho, hc] at hu
      · simp only [updateUser, ho, if_neg hc] at hu
        simp at hu
        rw [← hu, applyUserUpdate]
  · intro r hr
    rcases ho : stR.reviews.find? (fun x => x.id == rid) with _ | c
    · simp [updateReview, ho] at hr
    · simp only [updateReview, ho] at hr
      simp at hr
      rw [← hr, applyReviewUpdate]

theorem updatedAtLifecycle_witness :
    (∀ b, (createBook emptyBooks c1Input 3).1.body = some b →
      b.updatedAt = none ∧ (createBook emptyBooks c1Input 3).2.books = [] ++ [b]) ∧
    (∀ b, (updateBook ⟨[c3Book], 2⟩ 1 {} 9).1.body = some b → b.updatedAt = some 9) := by
  have h := updatedAtLifecycle emptyBooks c1Input 1 {} emptyUsers c1UserInput 1 {}
    initialReviews ⟨"b1", "u1", "a fine book", 5⟩ 1 {} 3
  have h2 := updatedAtLifecycle ⟨[c3Book], 2⟩ c1Input 1 {} emptyUsers c1UserInput 1 {}
    initialReviews ⟨"b1", "u1", "a fine book", 5⟩ 1 {} 9
  exact ⟨h.1, h2.2.2.2.1⟩

/-- C7: whenever the validator chains of a mutating endpoint report at least
one field violation, the endpoint answers 400 carrying the full aggregated
violation list — every failing field contributes, in chain order — and the
store is exactly as before the request: the response is produced before any
store mutation is attempted. -/
theorem validationBeforeMutation (stB : BookStore) (p : RawBookPayload) (bid : Nat)
    (stU : UserStore) (q : RawUserPayload) (uid : Nat)
    (stR : ReviewState) (w : RawReviewPayload) (rid : Nat) (now : Nat) :
    (userCreateViolations q ≠ [] → handleUserCreateRaw stU q now =
      ({ status := 400, code := some "VALIDATION_ERROR",
         details := usernameCreateErrs q.username ++ emailErrs q.email }, stU)) ∧
    (bookCreateViolations p ≠ [] → handleBookCreateRaw stB p now =
      ({ status := 400, code := some "VALIDATION_ERROR",
         details := titleCreateErrs p.title ++ authorCreateErrs p.author ++
           descriptionCreateErrs p.description ++ isbnCreateErrs p.isbn ++
           publishedYearCreateErrs p.publishedYear ++ priceCreateErrs p.price }, stB)) ∧
    (reviewCreateViolations w ≠ [] → handleReviewCreateRaw stR w now =
      ({ status := 400, code := some "VALIDATION_ERROR",
         details := bookIdCreateErrs w.bookId ++ userIdCreateErrs w.userId ++
           textCreateErrs w.text ++ ratingCreateErrs w.rating }, stR)) ∧
    (bookUpdateViolations p ≠ [] → handleBookUpdateRaw stB bid p now =
      ({ status := 400, code := some "VALIDATION_ERROR",
         details := bookUpdateViolations p }, stB)) ∧
    (userUpdateViolations q ≠ [] → handleUserUpdateRaw stU uid q now =
      ({ status := 400, code := some "VALIDATION_ERROR",
         details := userUpdateViolations q }, stU)) ∧
    (reviewUpdateViolations w ≠ [] → handleReviewUpdateRaw stR rid w now =
      ({ status := 400, code := some "VALIDATION_ERROR",
         details := reviewUpdateViolations w }, stR)) := by
  refine ⟨?_, ?_, ?_, ?_, ?_, ?_⟩
  · intro h
    simp only [handleUserCreateRaw, validateUserCreate, if_neg h]
    rfl
  · intro h
    simp only [handleBookCreateRaw, validateBookCreate, if_neg h]
    rfl
  · intro h
    simp only [handleReviewCreateRaw, validateReviewCreate, if_neg h]
    rfl
  · intro h; simp only [handleBookUpdateRaw, validateBookUpdate, if_neg h]
  · intro h; simp only [handleUserUpdateRaw, validateUserUpdate, if_neg h]
  · intro h; simp only [handleReviewUpdateRaw, validateReviewUpdate, if_neg h]

def c7User : RawUserPayload := { username := some "ab", email := some "a@b.com" }

def c7Review : RawReviewPayload := { text := some "short", rating := some 9 }

theorem validationBeforeMutation_witness :
    handleUserCreateRaw emptyUsers c7User 0 =
      ({ status := 400, code := some "VALIDATION_ERROR",
         details := [⟨"username", "Username must be between 3 and 50 characters"⟩] },
       emptyUsers) ∧
    (handleBookCreateRaw emptyBooks {} 0).1.status = 400 ∧
    (handleReviewCreateRaw initialReviews {} 0).1.status = 400 ∧
    (handleBookUpdateRaw emptyBooks 1 { isbn := some "zzz" } 0).2 = emptyBooks ∧
    (handleUserUpdateRaw emptyUsers 1 { email := some "nope" } 0).2 = emptyUsers ∧
    handleReviewUpdateRaw initialReviews 1 c7Review 0 =
      ({ status := 400, code := some "VALIDATION_ERROR",
         details := [invalidValue "text", invalidValue "rating"] }, initialReviews) := by
  have hu := (validationBeforeMutation emptyBooks {} 1 emptyUsers c7User 1
    initialReviews {} 1 0).1 (by decide)
  have hb := (validationBeforeMutation emptyBooks {} 1 emptyUsers c7User 1
    initialReviews {} 1 0).2.1 (by decide)
  have hr := (validationBeforeMutation emptyBooks {} 1 emptyUsers c7User 1
    initialReviews {} 1 0).2.2.1 (by decide)
  have hbu := (validationBeforeMutation emptyBooks { isbn := some "zzz" } 1 emptyUsers c7User 1
    initialReviews {} 1 0).2.2.2.1 (by decide)
  have huu := (validationBeforeMutation emptyBooks {} 1 emptyUsers { email := some "nope" } 1
    initialReviews {} 1 0).2.2.2.2.1 (by decide)
  have hru := (validationBeforeMutation emptyBooks {} 1 emptyUsers c7User 1
    initialReviews c7Review 1 0).2.2.2.2.2 (by decide)
  refine ⟨?_, ?_, ?_, ?_, ?_, ?_⟩
  · rw [hu]; decide
  · rw [hb]
  · rw [hr]
  · rw [hbu]
  · rw [huu]
  · rw [hru]; decide

/-- C9: creating a Review performs no existence check of its `bookId` against
the books store: even when no live Book has that id, the create answers 201,
stores the review under the fresh id, links it under that `bookId` in the
index, and leaves the books store untouched. -/
theorem reviewCreateNoBookCheck (app : AppState) (i : ReviewInput) (now : Nat)
    (_hnb : ∀ b ∈ app.books.books, toString b.id ≠ i.bookId) :
    (appCreateReview app i now).1.status = 201 ∧
    (∃ r ∈ (appCreateReview app i now).2.reviews.reviews,
      r.id = app.reviews.counter ∧ r.bookId = i.bookId) ∧
    app.reviews.counter ∈ idxLookup (appCreateReview app i now).2.reviews.bookReviews i.bookId ∧
    (appCreateReview app i now).2.books = app.books := by
  refine ⟨rfl, ?_, ?_, rfl⟩
  · refine ⟨⟨app.reviews.counter, i.bookId, i.userId, i.text, i.rating, now, none⟩,
      ?_, rfl, rfl⟩
    exact List.mem_append_right _ (List.mem_singleton.mpr rfl)
  · show app.reviews.counter ∈
      idxLookup (idxSet app.reviews.bookReviews i.bookId
        (idxLookup app.reviews.bookReviews i.bookId ++ [app.reviews.counter])) i.bookId
    rw [idxLookup_idxSet_self]
    exact List.mem_append_right _ (List.mem_singleton.mpr rfl)

def c9App : AppState := ⟨⟨[c1Book], 2⟩, emptyUsers, initialReviews⟩

def c9Input : ReviewInput := ⟨"999", "u1", "a fine book indeed", 4⟩

theorem reviewCreateNoBookCheck_witness :
    (appCreateReview c9App c9Input 3).1.status = 201 ∧
    (∃ r ∈ (appCreateReview c9App c9Input 3).2.reviews.reviews,
      r.id = c9App.reviews.counter ∧ r.bookId = c9Input.bookId) ∧
    c9App.reviews.counter ∈
      idxLookup (appCreateReview c9App c9Input 3).2.reviews.bookReviews c9Input.bookId ∧
    (appCreateReview c9App c9Input 3).2.books = c9App.books :=
  reviewCreateNoBookCheck c9App c9Input 3 (by decide)

/-- C10: a successful review update returns — and stores in place of the old
record — a review with the same id, bookId, userId and createdAt, differing at
most in text, rating and updatedAt (the only fields the endpoint knows), and
the book-to-reviews link index and the counter are left untouched. -/
theorem reviewUpdateFrame (st : ReviewState) (rid : Nat) (u : ReviewUpdate) (now : Nat)
    (r : Review) (hfind : st.reviews.find? (fun x => x.id == rid) = some r) :
    (updateReview st rid u now).1.status = 200 ∧
    (updateReview st rid u now).1.body = some (applyReviewUpdate r u now) ∧
    (applyReviewUpdate r u now).id = r.id ∧
    (applyReviewUpdate r u now).bookId = r.bookId ∧
    (applyReviewUpdate r u now).userId = r.userId ∧
    (applyReviewUpdate r u now).createdAt = r.createdAt ∧
    (updateReview st rid u now).2.bookReviews = st.bookReviews ∧
    (updateReview st rid u now).2.counter = st.counter ∧
    (updateReview st rid u now).2.reviews =
      replaceBy Review.id rid (applyReviewUpdate r u now) st.reviews := by
  simp only [updateReview, hfind]
  simp [applyReviewUpdate]

def c10State : ReviewState :=
  ⟨[{ id := 1, bookId := "b1", userId := "u1", text := "a fine book", rating := 3,
      createdAt := 0 }], [("b1", [1])], 2⟩

theorem reviewUpdateFrame_witness :
    (updateReview c10State 1 { rating := some 5 } 4).1.status = 200 ∧
    (updateReview c10State 1 { rating := some 5 } 4).2.bookReviews = c10State.bookReviews ∧
    (updateReview c10State 1 { rating := some 5 } 4).2.reviews =
      [{ id := 1, bookId := "b1", userId := "u1", text := "a fine book", rating := 5,
         createdAt := 0, updatedAt := some 4 }] := by
  have h := reviewUpdateFrame c10State 1 { rating := some 5 } 4
    { id := 1, bookId := "b1", userId := "u1", text := "a fine book", rating := 3,
      createdAt := 0 } (by decide)
  refine ⟨h.1, h.2.2.2.2.2.2.1, ?_⟩
  rw [h.2.2.2.2.2.2.2.2]
  decide

/-- C2: the uniqueness invariant — isbn unique among live books, email unique
among live users — is preserved by create, update and delete; the update
conflict check excludes the record being updated, so an update carrying a
record's own stored isbn never answers a conflict. -/
theorem uniqueFieldInvariant (stB : BookStore) (i : BookInput) (bid : Nat) (u u' : BookUpdate)
    (stU : UserStore) (j : UserInput) (uid : Nat) (v : UserUpdate) (now : Nat) (b : Book) :
    (UniqueBy Book.isbn stB.books → UniqueBy Book.isbn (createBook stB i now).2.books) ∧
    (UniqueBy Book.isbn stB.books → UniqueBy Book.isbn (updateBook stB bid u now).2.books) ∧
    (UniqueBy Book.isbn stB.books → UniqueBy Book.isbn (deleteBook stB bid).2.books) ∧
    (UniqueBy User.email stU.users → UniqueBy User.email (createUser stU j now).2.users) ∧
    (UniqueBy User.email stU.users → UniqueBy User.email (updateUser stU uid v now).2.users) ∧
    (UniqueBy User.email stU.users → UniqueBy User.email (deleteUser stU uid).2.users) ∧
    (stB.books.find? (fun c => c.id == bid) = some b → u'.isbn = some b.isbn →
      (updateBook stB bid u' now).1.status = 200) := by
  refine ⟨?_, ?_, ?_, ?_, ?_, ?_, ?_⟩
  · intro h
    unfold UniqueBy at h ⊢
    rcases ho : stB.books.find? (fun x => x.isbn == i.isbn) with _ | c
    · simp only [createBook, ho]
      refine List.pairwise_append.mpr ⟨h, List.pairwise_singleton _ _, ?_⟩
      intro x hx y hy
      rw [List.mem_singleton.mp hy]
      show x.isbn ≠ i.isbn
      have := List.find?_eq_none.mp ho x hx
      simpa using this
    · simp only [createBook, ho]; exact h
  · intro h
    unfold UniqueBy at h ⊢
    rcases ho : stB.books.find? (fun x => x.id == bid) with _ | c
    · simp only [updateBook, ho]; exact h
    · by_cases hc : isbnConflict stB c u = true
      · simp only [updateBook, ho, if_pos hc]; exact h
      · simp only [updateBook, ho, if_neg hc]
        refine pairwise_replaceBy Book.isbn ho h ?_
        rcases hu : u.isbn with _ | s
        · left; simp [applyBookUpdate, updField, hu]
        · by_cases hs : (s != "") = true
          · by_cases hsb : (s != c.isbn) = true
            · right
              have hscan : stB.books.find? (fun d => d.isbn == s) = none := by
                rcases hsc : stB.books.find? (fun d => d.isbn == s) with _ | d
                · exact hsc
                · exfalso
                  apply hc
                  simp only [isbnConflict, hu, hsc]
                  simp [hs, hsb]
              intro d hd
              have hne := List.find?_eq_none.mp hscan d hd
              have hap : (applyBookUpdate c u now).isbn = s := by
                simp [applyBookUpdate, updField, hu, strTruthy, hs]
              rw [hap]; simpa using hne
            · left
              have hseq : s = c.isbn := by simpa using hsb
              simp [applyBookUpdate, updField, hu, strTruthy, hs, hseq]
          · left
            simp only [applyBookUpdate, updField, hu, strTruthy]
            simp at hs
            simp [hs]
  · intro h
    unfold UniqueBy at h ⊢
    rcases ho : stB.books.find? (fun x => x.id == bid) with _ | c
    · simp only [deleteBook, ho]; exact h
    · simp only [deleteBook, ho]
      exact h.sublist (List.filter_sublist _)
  · intro h
    unfold UniqueBy at h ⊢
    rcases ho : stU.users.find? (fun x => x.email == j.email) with _ | c
    · simp only [createUser, ho]
      refine List.pairwise_append.mpr ⟨h, List.pairwise_singleton _ _, ?_⟩
      intro x hx y hy
      rw [List.mem_singleton.mp hy]
      show x.email ≠ j.email
      have := List.find?_eq_none.mp ho x hx
      simpa using this
    · simp only [createUser, ho]; exact h
  · intro h
    unfold UniqueBy at h ⊢
    rcases ho : stU.users.find? (fun x => x.id == uid) with _ | c
    · simp only [updateUser, ho]; exact h
    · by_cases hc : emailConflict stU c v = true
      · simp only [updateUser, ho, if_pos hc]; exact h
      · simp only [updateUser, ho, if_neg hc]
        refine pairwise_replaceBy User.email ho h ?_
        rcases hv : v.email with _ | e
        · left; simp [applyUserUpdate, updField, hv]
        · by_cases hs : (e != "") = true
          · by_cases hsb : (e != c.email) = true
            · right
              have hscan : stU.users.find? (fun d => d.email == e) = none := by
                rcases hsc : stU.users.find? (fun d => d.email == e) with _ | d
                · exact hsc
                · exfalso
                  apply hc
                  simp only [emailConflict, hv, hsc]
                  simp [hs, hsb]
              intro d hd
              have hne := List.find?_eq_none.mp hscan d hd
              have hap : (applyUserUpdate c v now).email = e := by
                simp [applyUserUpdate, updField, hv, strTruthy, hs]
              rw [hap]; simpa using hne
            · left
              have hseq : e = c.email := by simpa using hsb
              simp [applyUserUpdate, updField, hv, strTruthy, hs, hseq]
          · left
            simp only [applyUserUpdate, updField, hv, strTruthy]
            simp at hs
            simp [hs]
  · intro h
    unfold UniqueBy at h ⊢
    rcases ho : stU.users.find? (fun x => x.id == uid) with _ | c
    · simp only [deleteUser, ho]; exact h
    · simp only [deleteUser, ho]
      exact h.sublist (List.filter_sublist _)
  · intro hf hi
    have hc : isbnConflict stB b u' = false := by
      simp [isbnConflict, hi]
    simp only [updateBook, hf, hc]
    simp

def c2Book2 : Book :=
  { id := 2, title := "Emma", author := "Jane Austen",
    description := "A novel about youthful hubris", isbn := "9780141439587",
    publishedYear := 1815, price := 9, createdAt := 0 }

theorem uniqueFieldInvariant_witness :
    UniqueBy Book.isbn (createBook ⟨[c1Book], 2⟩ c1Input 5).2.books ∧
    UniqueBy Book.isbn (updateBook ⟨[c1Book, c2Book2], 3⟩ 2
      { isbn := some "9780441013593" } 5).2.books ∧
    UniqueBy Book.isbn (deleteBook ⟨[c1Book, c2Book2], 3⟩ 1).2.books ∧
    UniqueBy User.email (createUser ⟨[c1User], 2⟩ c1UserInput 5).2.users ∧
    UniqueBy User.email (updateUser ⟨[c1User], 2⟩ 1 { email := some "c@d.com" } 5).2.users ∧
    UniqueBy User.email (deleteUser ⟨[c1User], 2⟩ 1).2.users ∧
    (updateBook ⟨[c1Book, c2Book2], 3⟩ 2 { isbn := some "9780141439587" } 5).1.status = 200 := by
  have h1 := uniqueFieldInvariant ⟨[c1Book], 2⟩ c1Input 1 {} {} ⟨[c1User], 2⟩
    c1UserInput 1 {} 5 c1Book
  have h2 := uniqueFieldInvariant ⟨[c1Book, c2Book2], 3⟩ c1Input 2
    { isbn := some "9780441013593" } { isbn := some "9780141439587" } ⟨[c1User], 2⟩
    c1UserInput 1 { email := some "c@d.com" } 5 c2Book2
  have h3 := uniqueFieldInvariant ⟨[c1Book, c2Book2], 3⟩ c1Input 1 {} {} ⟨[c1User], 2⟩
    c1UserInput 1 {} 5 c1Book
  exact ⟨h1.1 (by decide), h2.2.1 (by decide), h3.2.2.1 (by decide),
    h1.2.2.2.1 (by decide), h2.2.2.2.2.1 (by decide), h1.2.2.2.2.2.1 (by decide),
    h2.2.2.2.2.2.2 (by decide) (by decide)⟩

theorem authorMatches_empty (x : String) : authorMatches x "" = true := by
  have : lowerChars "" = [] := rfl
  rw [authorMatches, this]
  exact strContainsSub_nil _

/-- C6: listing books returns exactly the live books satisfying the
conjunction of all supplied filters — author as a case-insensitive substring
of the stored author, minPrice and maxPrice as inclusive price bounds — in
the store's insertion order (the filtered list keeps the stored order). -/
theorem listBooksMatchesSpec (st : BookStore) (a : Option String) (m M : Option Rat) :
    listBooks st a m M = st.books.filter (specBookFilter a m M) := by
  rcases a with _ | s
  · rcases m with _ | mv
    · rcases M with _ | Mv
      · simp only [listBooks]
        exact ((List.filter_congr fun b _ => by simp [specBookFilter]).trans
          (List.filter_true _)).symm
      · simp only [listBooks]
        refine List.filter_congr fun b _ => ?_
        simp [specBookFilter]
    · rcases M with _ | Mv
      · simp only [listBooks]
        refine List.filter_congr fun b _ => ?_
        simp [specBookFilter]
      · simp only [listBooks, List.filter_filter]
        refine List.filter_congr fun b _ => ?_
        simp [specBookFilter, Bool.and_comm, Bool.and_left_comm, Bool.and_assoc]
  · by_cases hs : (s != "") = true
    · rcases m with _ | mv
      · rcases M with _ | Mv
        · simp only [listBooks, if_pos hs]
          refine List.filter_congr fun b _ => ?_
          simp [specBookFilter]
        · simp only [listBooks, if_pos hs, List.filter_filter]
          refine List.filter_congr fun b _ => ?_
          simp [specBookFilter, Bool.and_comm, Bool.and_left_comm, Bool.and_assoc]
      · rcases M with _ | Mv
        · simp only [listBooks, if_pos hs, List.filter_filter]
          refine List.filter_congr fun b _ => ?_
          simp [specBookFilter, Bool.and_comm, Bool.and_left_comm, Bool.and_assoc]
        · simp only [listBooks, if_pos hs, List.filter_filter]
          refine List.filter_congr fun b _ => ?_
          simp [specBookFilter, Bool.and_comm, Bool.and_left_comm, Bool.and_assoc]
    · have hse : s = "" := by simpa using hs
      subst hse
      rcases m with _ | mv
      · rcases M with _ | Mv
        · simp only [listBooks, if_neg hs]
          exact ((List.filter_congr fun b _ => by
            simp [specBookFilter, authorMatches_empty]).trans (List.filter_true _)).symm
        · simp only [listBooks, if_neg hs]
          refine List.filter_congr fun b _ => ?_
          simp [specBookFilter, authorMatches_empty]
      · rcases M with _ | Mv
        · simp only [listBooks, if_neg hs]
          refine List.filter_congr fun b _ => ?_
          simp [specBookFilter, authorMatches_empty]
        · simp only [listBooks, if_neg hs, List.filter_filter]
          refine List.filter_congr fun b _ => ?_
          simp [specBookFilter, authorMatches_empty, Bool.and_comm,
            Bool.and_left_comm, Bool.and_assoc]

/-- C8 (counterexample): the isbn rule is the regular expression
/^[0-9-]{10,13}$/, which counts hyphens toward the 10-13 bound: the
all-hyphen string of length 10 — zero digit characters — is accepted by both
the create and the update chain, while a string of 13 digits spread over 16
characters by hyphens is rejected; both verdicts contradict the claim's
"10 to 13 digit characters, possibly interspersed with hyphens". -/
theorem isbnRuleCounterexample :
    isbnMatches "----------" = true ∧
    isbnCreateErrs (some "----------") = [] ∧
    isbnUpdateErrs (some "----------") = [] ∧
    specIsbnOk "----------" = false ∧
    isbnMatches "123-456-789-0123" = false ∧
    specIsbnOk "123-456-789-0123" = true := by decide

/-- C8 (amended): book creation and update accept an isbn string exactly when
its total length — digits and hyphens together — is between 10 and 13 and
every character is a digit or a hyphen. -/
theorem isbnRuleAmended (s : String) :
    (isbnCreateErrs (some s) = [] ↔
      (10 ≤ s.data.length ∧ s.data.length ≤ 13 ∧
        ∀ c ∈ s.data, c.isDigit = true ∨ c = '-')) ∧
    (isbnUpdateErrs (some s) = [] ↔
      (10 ≤ s.data.length ∧ s.data.length ≤ 13 ∧
        ∀ c ∈ s.data, c.isDigit = true ∨ c = '-')) := by
  have hm : isbnMatches s = true ↔
      (10 ≤ s.data.length ∧ s.data.length ≤ 13 ∧
        ∀ c ∈ s.data, c.isDigit = true ∨ c = '-') := by
    simp [isbnMatches, strLen, List.all_eq_true, and_assoc]
  have h1 : isbnCreateErrs (some s) = [] ↔ isbnMatches s = true := by
    by_cases h : isbnMatches s = true <;> simp [isbnCreateErrs, h]
  have h2 : isbnUpdateErrs (some s) = [] ↔ isbnMatches s = true := by
    by_cases h : isbnMatches s = true <;> simp [isbnUpdateErrs, h]
  exact ⟨h1.trans hm, h2.trans hm⟩

theorem isbnRuleAmended_witness :
    isbnCreateErrs (some "9780441013593") = [] ∧
    isbnUpdateErrs (some "978-0-441-01") = [] := by
  exact ⟨(isbnRuleAmended "9780441013593").1.mpr (by decide),
    (isbnRuleAmended "978-0-441-01").2.mpr (by decide)⟩

/-- The inductive invariant of the reviews module: identifiers are bounded by
the counter, review ids and index keys are duplicate-free, and every id in the
link index belongs to a live review of the entry's book. -/
def ReviewInv (st : ReviewState) : Prop :=
  (∀ r ∈ st.reviews, r.id < st.counter) ∧
  (st.reviews.map Review.id).Nodup ∧
  (st.bookReviews.map Prod.fst).Nodup ∧
  (∀ p ∈ st.bookReviews, ∀ n ∈ p.2, ∃ x ∈ st.reviews, x.id = n ∧ x.bookId = p.1)

theorem exists_mem_replaceBy {l : List Review} {rid : Nat} {r' : Review}
    (hpres : ∀ c ∈ l, (Review.id c == rid) = true → r'.id = c.id ∧ r'.bookId = c.bookId)
    {x : Review} (hx : x ∈ l) :
    ∃ y ∈ replaceBy Review.id rid r' l, y.id = x.id ∧ y.bookId = x.bookId := by
  induction l with
  | nil => simp at hx
  | cons a t ih =>
    by_cases ha : (Review.id a == rid) = true
    · rw [replaceBy, if_pos ha]
      rcases List.mem_cons.mp hx with h1 | h1
      · subst h1
        obtain ⟨h2, h3⟩ := hpres x (List.mem_cons_self x t) ha
        exact ⟨r', List.mem_cons_self _ _, h2, h3⟩
      · exact ⟨x, List.mem_cons_of_mem _ h1, rfl, rfl⟩
    · rw [replaceBy, if_neg ha]
      rcases List.mem_cons.mp hx with h1 | h1
      · subst h1
        exact ⟨x, List.mem_cons_self _ _, rfl, rfl⟩
      · obtain ⟨y, hy, hyid, hybid⟩ := ih (fun c hc => hpres c (List.mem_cons_of_mem _ hc)) h1
        exact ⟨y, List.mem_cons_of_mem _ hy, hyid, hybid⟩

theorem reviewInv_create {st : ReviewState} (h : ReviewInv st) (i : ReviewInput) (now : Nat) :
    ReviewInv (createReview st i now).2 := by
  obtain ⟨hbound, hnodup, hkeys, hidx⟩ := h
  refine ⟨?_, ?_, ?_, ?_⟩
  · intro r hr
    rcases List.mem_append.mp hr with h1 | h1
    · exact Nat.lt_succ_of_lt (hbound r h1)
    · rw [List.mem_singleton.mp h1]
      exact Nat.lt_succ_self _
  · show ((st.reviews ++ [_]).map Review.id).Nodup
    rw [List.map_append]
    refine List.nodup_append.mpr ⟨hnodup, List.nodup_singleton _, ?_⟩
    intro n hn hns
    rcases List.mem_map.mp hn with ⟨r, hr, hid⟩
    have h1 : n = st.counter := by simpa using hns
    have h2 : n < st.counter := hid ▸ hbound r hr
    rw [h1] at h2
    exact Nat.lt_irrefl _ h2
  · exact keys_idxSet_nodup hkeys
  · intro p hp n hn
    rcases mem_idxSet hp with h1 | h1
    · subst h1
      rcases List.mem_append.mp hn with h2 | h2
      · rcases mem_idxLookup h2 with ⟨q, hq, hqk, hnq⟩
        rcases hidx q hq n hnq with ⟨x, hx, hxid, hxbid⟩
        exact ⟨x, List.mem_append_left _ hx, hxid, by rw [hxbid, hqk]⟩
      · have h3 : n = st.counter := by simpa using h2
        exact ⟨⟨st.counter, i.bookId, i.userId, i.text, i.rating, now, none⟩,
          List.mem_append_right _ (List.mem_singleton.mpr rfl), by simp [h3], rfl⟩
    · rcases hidx p h1 n hn with ⟨x, hx, hxid, hxbid⟩
      exact ⟨x, List.mem_append_left _ hx, hxid, hxbid⟩

theorem reviewInv_update {st : ReviewState} (h : ReviewInv st) (rid : Nat)
    (u : ReviewUpdate) (now : Nat) : ReviewInv (updateReview st rid u now).2 := by
  obtain ⟨hbound, hnodup, hkeys, hidx⟩ := h
  rcases ho : st.reviews.find? (fun x => x.id == rid) with _ | r
  · simp only [updateReview, ho]
    exact ⟨hbound, hnodup, hkeys, hidx⟩
  · have hrid : r.id = rid := by
      simpa using List.find?_some (p := fun x : Review => x.id == rid) ho
    have hr'id : (applyReviewUpdate r u now).id = r.id := by simp [applyReviewUpdate]
    have hr'bid : (applyReviewUpdate r u now).bookId = r.bookId := by
      simp [applyReviewUpdate]
    have huniq : ∀ c ∈ st.reviews, (Review.id c == rid) = true → c = r := by
      intro c hc hceq
      have hceq' : c.id = rid := by simpa using hceq
      have h1 := find?_unique_mem hnodup hc
      rw [hceq'] at h1
      exact Option.some_inj.mp (h1.symm.trans ho)
    have hpres : ∀ c ∈ st.reviews, (Review.id c == rid) = true →
        (applyReviewUpdate r u now).id = c.id ∧
        (applyReviewUpdate r u now).bookId = c.bookId := by
      intro c hc hceq
      rw [huniq c hc hceq]
      exact ⟨hr'id, hr'bid⟩
    simp only [updateReview, ho]
    refine ⟨?_, ?_, hkeys, ?_⟩
    · intro x hx
      rcases mem_replaceBy hx with h1 | h1
      · exact hbound x h1
      · rw [h1, hr'id]
        exact hbound r (List.mem_of_find?_eq_some ho)
    · rw [map_replaceBy Review.id (fun c hc hceq => (hpres c hc hceq).1)]
      exact hnodup
    · intro p hp n hn
      rcases hidx p hp n hn with ⟨x, hx, hxid, hxbid⟩
      obtain ⟨y, hy, hyid, hybid⟩ := exists_mem_replaceBy hpres hx
      exact ⟨y, hy, by rw [hyid, hxid], by rw [hybid, hxbid]⟩

theorem reviewInv_delete {st : ReviewState} (h : ReviewInv st) (rid : Nat) :
    ReviewInv (deleteReview st rid).2 := by
  obtain ⟨hbound, hnodup, hkeys, hidx⟩ := h
  rcases ho : st.reviews.find? (fun x => x.id == rid) with _ | r
  · simp only [deleteReview, ho]
    exact ⟨hbound, hnodup, hkeys, hidx⟩
  · simp only [deleteReview, ho]
    refine ⟨?_, ?_, keys_idxSet_nodup hkeys, ?_⟩
    · intro x hx
      exact hbound x (List.mem_filter.mp hx).1
    · exact hnodup.sublist ((List.filter_sublist _).map Review.id)
    · intro p hp n hn
      rcases mem_idxSet_nodup hkeys hp with h1 | ⟨h1, h2⟩
      · subst h1
        have hn' := List.mem_filter.mp hn
        rcases mem_idxLookup hn'.1 with ⟨q, hq, hqk, hnq⟩
        rcases hidx q hq n hnq with ⟨x, hx, hxid, hxbid⟩
        refine ⟨x, List.mem_filter.mpr ⟨hx, ?_⟩, hxid, by rw [hxbid, hqk]⟩
        rw [hxid]
        exact hn'.2
      · rcases hidx p h1 n hn with ⟨x, hx, hxid, hxbid⟩
        refine ⟨x, List.mem_filter.mpr ⟨hx, ?_⟩, hxid, hxbid⟩
        have hxr : x.id ≠ rid := by
          intro hcon
          have h3 := find?_unique_mem hnodup hx
          rw [hcon] at h3
          have h4 : x = r := Option.some_inj.mp (h3.symm.trans ho)
          exact h2 (by rw [← hxbid, h4])
        simpa using hxr

theorem reviewInv_runOps {st : ReviewState} (h : ReviewInv st) (ops : List ReviewOp) :
    ReviewInv (runOps st ops) := by
  induction ops generalizing st with
  | nil => exact h
  | cons op t ih =>
    rw [runOps, List.foldl_cons]
    cases op with
    | create i now => exact ih (reviewInv_create h i now)
    | update rid u now => exact ih (reviewInv_update h rid u now)
    | del rid => exact ih (reviewInv_delete h rid)

theorem reviewInv_reachable {st : ReviewState} (h : Reachable st) : ReviewInv st := by
  obtain ⟨ops, rfl⟩ := h
  refine reviewInv_runOps ⟨?_, ?_, ?_, ?_⟩ ops <;> simp [initialReviews]

/-- C5: on every reachable reviews state, each review id in the link index
belongs to a live review whose `bookId` is the index key; creating a review
appends its fresh id at the end of its book's entry; deleting a review removes
its id from its book's entry, so a subsequent listing of the book's reviews
excludes it; and listing a book's reviews resolves every linked id, in link
order, to a live review of that book — no stale entries. -/
theorem linkIndexIntegrity (st : ReviewState) (hreach : Reachable st) (i : ReviewInput)
    (now rid : Nat) (r : Review) (bid : String) :
    (∀ p ∈ st.bookReviews, ∀ n ∈ p.2, ∃ x ∈ st.reviews, x.id = n ∧ x.bookId = p.1) ∧
    (idxLookup (createReview st i now).2.bookReviews i.bookId =
      idxLookup st.bookReviews i.bookId ++ [st.counter]) ∧
    (st.reviews.find? (fun x => x.id == rid) = some r →
      rid ∉ idxLookup (deleteReview st rid).2.bookReviews r.bookId ∧
      ∀ o ∈ getReviewsForBook (deleteReview st rid).2 r.bookId,
        ∀ x, o = some x → x.id ≠ rid) ∧
    (∀ o ∈ getReviewsForBook st bid, ∃ x, o = some x ∧ x.bookId = bid) := by
  obtain ⟨hbound, hnodup, hkeys, hidx⟩ := reviewInv_reachable hreach
  refine ⟨hidx, ?_, ?_, ?_⟩
  · show idxLookup (idxSet st.bookReviews i.bookId
      (idxLookup st.bookReviews i.bookId ++ [st.counter])) i.bookId = _
    exact idxLookup_idxSet_self _ _ _
  · intro ho
    constructor
    · simp only [deleteReview, ho]
      show rid ∉ idxLookup (idxSet st.bookReviews r.bookId
        ((idxLookup st.bookReviews r.bookId).filter (fun x => x != rid))) r.bookId
      rw [idxLookup_idxSet_self]
      intro hmem
      have h1 := (List.mem_filter.mp hmem).2
      simp at h1
    · intro o hoo x hox
      subst hox
      simp only [deleteReview, ho, getReviewsForBook] at hoo
      rcases List.mem_map.mp hoo with ⟨n, hn, hfo⟩
      have hx := List.mem_of_find?_eq_some hfo
      have h1 := (List.mem_filter.mp hx).2
      simpa using h1
  · intro o hoo
    simp only [getReviewsForBook] at hoo
    rcases List.mem_map.mp hoo with ⟨n, hn, hfo⟩
    rcases mem_idxLookup hn with ⟨q, hq, hqk, hnq⟩
    rcases hidx q hq n hnq with ⟨x, hx, hxid, hxbid⟩
    refine ⟨x, ?_, by rw [hxbid, hqk]⟩
    rw [← hfo]
    have h1 := find?_unique_mem hnodup hx
    rw [hxid] at h1
    exact h1

def c5Input : ReviewInput := ⟨"b1", "u1", "a gripping read", 5⟩

def c5Review : Review :=
  { id := 1, bookId := "b1", userId := "u1", text := "a gripping read", rating := 5,
    createdAt := 0 }

theorem linkIndexIntegrity_witness :
    ((1 : Nat) ∉ idxLookup (deleteReview (runOps initialReviews
      [ReviewOp.create c5Input 0]) 1).2.bookReviews c5Review.bookId) ∧
    idxLookup (createReview (runOps initialReviews [ReviewOp.create c5Input 0])
      c5Input 3).2.bookReviews c5Input.bookId = [1, 2] := by
  have h := linkIndexIntegrity (runOps initialReviews [ReviewOp.create c5Input 0])
    ⟨[ReviewOp.create c5Input 0], rfl⟩ c5Input 3 1 c5Review "b1"
  refine ⟨(h.2.2.1 ?_).1, ?_⟩
  · decide
  · rw [h.2.1]
    decide

end BookReviewApi
